import Mathlib

/-!
Verification of the stagelight generation/validation core.

Shallow embedding of the constraint validator (`src/validate.py`), the
per-beat LLM retry loop (`src/llm.py`, `_call_llm_single`) and the
concurrent scheduler (`src/llm.py`, `predict_effects`).

Modelling conventions:
* JSON values are modelled by the inductive `JVal`; numbers are integers
  (the effect enums are integer-valued), objects are association lists in
  insertion order (Python dicts preserve insertion order).
* The external LLM call — `client.chat.completions.create` together with
  `json.loads`/regex extraction of a JSON document from the raw response —
  is an oracle `Nat → String → LLMOutcome` mapping (attempt number, user
  prompt) to one of: a raised exception, a response from which no JSON
  object could be extracted, or a parsed JSON document.  Everything the
  repository's own code does with the parsed document (field extraction,
  normalisation, validation, feedback, retry control flow) is embedded
  faithfully.
* Thread-pool concurrency in `predict_effects` is modelled by quantifying
  over the completion order of the per-beat tasks: results are written into
  index-addressed arrays in an arbitrary order that is a permutation of
  the beat indices.
-/

/-- A JSON value.  Numbers are modelled as integers (all effect fields are
integer enums); `null` stands for Python `None`. -/
inductive JVal where
  | null : JVal
  | num (n : Int) : JVal
  | str (s : String) : JVal
  | arr (xs : List JVal) : JVal
  | obj (fields : List (String × JVal)) : JVal

/-- A decoded JSON object (a Python dict): association list of fields in
insertion order.  A `groupLight` candidate is such an object. -/
abbrev GroupLight := List (String × JVal)

/-- `gl.get(field)` on a Python dict: the value at `field`, if present. -/
def jlookup (gl : GroupLight) (f : String) : Option JVal :=
  (gl.find? (fun p => p.1 = f)).map Prod.snd

/-- `gl[field]` for a field known to be present (defaults to `null`,
which is unreachable when the caller has checked presence). -/
def getField (gl : GroupLight) (f : String) : JVal :=
  (jlookup gl f).getD .null

/-- Rendering of a JSON value inside an f-string (Python's `str()`); the
exact text of non-numeric renderings is immaterial to every property
proved below. -/
def JVal.render : JVal → String
  | .null => "None"
  | .num n => toString n
  | .str s => s
  | .arr _ => "[...]"
  | .obj _ => "\x7b...\x7d"

/-- Python `v in range(0, hi)`: membership only holds for integers in
`[0, hi)`; a non-numeric value is never in the range. -/
def inEnumRange (v : JVal) (hi : Int) : Bool :=
  match v with
  | .num n => 0 ≤ n && n < hi
  | _ => false

/-- Python `v == n` between a JSON value and an integer literal. -/
def isNum (v : JVal) (n : Int) : Bool :=
  match v with
  | .num m => m == n
  | _ => false

/-- `VALID_RANGES` from `src/validate.py`, in dict insertion order;
each field is checked against `range(0, hi)`. -/
def VALID_RANGES : List (String × Int) :=
  [("MotionEffect", 7), ("ColorEffect", 4), ("IntensityEffect", 5),
   ("VfxEffect", 3), ("groupLightKey", 7)]

/-- The five required fields, in the order the source checks them. -/
def requiredFields : List String :=
  ["groupLightKey", "MotionEffect", "ColorEffect", "IntensityEffect", "VfxEffect"]

/-- The first required field missing from `gl`, if any. -/
def firstMissing (gl : GroupLight) : Option String :=
  requiredFields.find? (fun f => (jlookup gl f).isNone)

/-- Violation text for a missing required field. -/
def missingMsg (beat_idx : Int) (f : String) : String :=
  s!"Beat {beat_idx}: missing field " ++ f

/-- Violation text for an out-of-range field value. -/
def rangeMsg (beat_idx : Int) (keyS f : String) (v : JVal) : String :=
  s!"Beat {beat_idx}, key " ++ keyS ++ ": " ++ f ++ "=" ++ v.render ++ " out of range"

/-- One enum-range check (`gl[field] not in valid`). -/
def rangeErr (beat_idx : Int) (keyS f : String) (v : JVal) (hi : Int) : List String :=
  if inEnumRange v hi then [] else [rangeMsg beat_idx keyS f v]

/-- The VFX-group rules (`key in {0, 1}`) from `src/validate.py`. -/
def vfxRules (beat_idx : Int) (key m c i v : JVal) : List String :=
  if isNum key 0 || isNum key 1 then
    let keyS := key.render
    (if isNum m 0 then [] else
      [s!"Beat {beat_idx}, VFX key " ++ keyS ++ ": MotionEffect should be 0, got " ++ m.render]) ++
    (if isNum c 0 then [] else
      [s!"Beat {beat_idx}, VFX key " ++ keyS ++ ": ColorEffect should be 0, got " ++ c.render]) ++
    (if isNum i 0 then [] else
      [s!"Beat {beat_idx}, VFX key " ++ keyS ++ ": IntensityEffect should be 0, got " ++ i.render]) ++
    (if isNum v 0 then
      [s!"Beat {beat_idx}, VFX key " ++ keyS ++ ": VfxEffect should not be 0"] else [])
  else []

/-- The single-light-group rules (`key in {2, 3}`). -/
def singleRules (beat_idx : Int) (key m v : JVal) : List String :=
  if isNum key 2 || isNum key 3 then
    let keyS := key.render
    (if isNum m 0 || isNum m 3 || isNum m 4 || isNum m 5 || isNum m 6 then [] else
      [s!"Beat {beat_idx}, Single key " ++ keyS ++ ": MotionEffect=" ++ m.render ++
        " not recommended (use 3-6)"]) ++
    (if isNum v 0 then [] else
      [s!"Beat {beat_idx}, Single key " ++ keyS ++ ": VfxEffect should be 0, got " ++ v.render])
  else []

/-- The multi-light-group rules (`key in {4, 5, 6}`). -/
def multiRules (beat_idx : Int) (key m v : JVal) : List String :=
  if isNum key 4 || isNum key 5 || isNum key 6 then
    let keyS := key.render
    (if isNum m 0 || isNum m 1 || isNum m 2 then [] else
      [s!"Beat {beat_idx}, Multi key " ++ keyS ++ ": MotionEffect=" ++ m.render ++
        " not recommended (use 1-2)"]) ++
    (if isNum v 0 then [] else
      [s!"Beat {beat_idx}, Multi key " ++ keyS ++ ": VfxEffect should be 0, got " ++ v.render])
  else []

/-- `validate_group_light` from `src/validate.py`: validate one groupLight
object; returns the list of violation messages (empty = valid).  The first
missing required field short-circuits; otherwise the enum-range checks run
in `VALID_RANGES` order followed by the per-group-type rules. -/
def validate_group_light (gl : GroupLight) (beat_idx : Int) : List String :=
  match firstMissing gl with
  | some f => [missingMsg beat_idx f]
  | none =>
    let key := getField gl "groupLightKey"
    let m := getField gl "MotionEffect"
    let c := getField gl "ColorEffect"
    let i := getField gl "IntensityEffect"
    let v := getField gl "VfxEffect"
    let keyS := key.render
    rangeErr beat_idx keyS "MotionEffect" m 7 ++
    rangeErr beat_idx keyS "ColorEffect" c 4 ++
    rangeErr beat_idx keyS "IntensityEffect" i 5 ++
    rangeErr beat_idx keyS "VfxEffect" v 3 ++
    rangeErr beat_idx keyS "groupLightKey" key 7 ++
    vfxRules beat_idx key m c i v ++
    singleRules beat_idx key m v ++
    multiRules beat_idx key m v

/-- Build a groupLight object with the five required fields (in the wire
order used by the prompt examples) and integer values. -/
def mkGL (key m c i v : Int) : GroupLight :=
  [("groupLightKey", .num key), ("MotionEffect", .num m), ("ColorEffect", .num c),
   ("IntensityEffect", .num i), ("VfxEffect", .num v)]

/-! ## Per-beat retry loop (`_call_llm_single`, `src/llm.py`) -/

/-- Outcome of one attempt's external interaction: the service call raised
(network/API error, or `json.loads` failing on the regex-extracted text),
or the response text contained no extractable JSON object (`json.loads`
failed and the regex found no match, line 221's `continue`), or a JSON
document was obtained. -/
inductive LLMOutcome where
  | raised : LLMOutcome
  | noJson : LLMOutcome
  | ok (parsed : JVal) : LLMOutcome

/-- The error-feedback block appended to the base prompt on a retry
(`src/llm.py` lines 197–202). -/
def feedbackSuffix (e : String) : String :=
  "\n\nYour previous response had these constraint ERRORS, fix them:\n" ++ e ++
  "\nVFX groups (key 0,1): ONLY VfxEffect. " ++
  "Single (key 2,3): Motion 3-6. Multi (key 4,5,6): Motion 1-2."

/-- The user prompt actually sent on an attempt: the base prompt, plus the
feedback block when `error_feedback` is set. -/
def promptFor (base : String) (fb : Option String) : String :=
  match fb with
  | none => base
  | some e => base ++ feedbackSuffix e

/-- First list-valued entry of `parsed.values()` (insertion order), used
when the `effects` key holds a non-list value (`src/llm.py` lines 229–234). -/
def firstListValue : List (String × JVal) → Option (List JVal)
  | [] => none
  | (_, .arr xs) :: _ => some xs
  | _ :: rest => firstListValue rest

/-- Extraction of `(effects, reasoning)` from the parsed document
(`src/llm.py` lines 223–238): a dict yields `get("reasoning", "")` and
`get("effects", [])`, falling back to the first list value when the
`effects` key holds a non-list; a top-level list is itself the effects
list; anything else yields no effects. -/
def extractEffects (parsed : JVal) : List JVal × JVal :=
  match parsed with
  | .obj fields =>
    let reasoning := (jlookup fields "reasoning").getD (.str "")
    let effects :=
      match jlookup fields "effects" with
      | some (.arr xs) => xs
      | some _ => (firstListValue fields).getD []
      | none => []
    (effects, reasoning)
  | .arr xs => (xs, .str "")
  | _ => ([], .str "")

/-- Normalisation (`src/llm.py` lines 240–247): keep dict items, flatten
one level of nested lists keeping their dict elements, drop the rest. -/
def normalizeEffects (effects : List JVal) : List GroupLight :=
  match effects with
  | [] => []
  | .obj fields :: rest => fields :: normalizeEffects rest
  | .arr xs :: rest =>
    (xs.filterMap (fun x => match x with | .obj f => some f | _ => none)) ++
      normalizeEffects rest
  | _ :: rest => normalizeEffects rest

/-- `all_errors` of an attempt (`src/llm.py` lines 249–253): every
candidate's violations, concatenated in candidate order. -/
def beatErrors (beat_idx : Int) (effects : List GroupLight) : List String :=
  (effects.map (fun gl => validate_group_light gl beat_idx)).flatten

/-- One attempt fails when the call raised, no JSON could be extracted, or
some candidate produced a validation violation. -/
def attemptFails (beat_idx : Int) : LLMOutcome → Bool
  | .raised => true
  | .noJson => true
  | .ok parsed => !(beatErrors beat_idx (normalizeEffects (extractEffects parsed).1)).isEmpty

/-- The retry loop of `_call_llm_single` (`src/llm.py` lines 193–262),
as a function of the oracle, the base prompt, the current attempt index,
the remaining attempts, and the pending `error_feedback`.  Returns
`(some (effects, reasoning), n)` on success and `(none, n)` on retry
exhaustion, where `n` counts the attempts performed. -/
def call_llm_loop (oracle : Nat → String → LLMOutcome) (base : String) (beat_idx : Int) :
    Nat → Nat → Option String → Option (List GroupLight × JVal) × Nat
  | _, 0, _ => (none, 0)
  | a, r + 1, fb =>
    match oracle a (promptFor base fb) with
    | .raised =>
      let p := call_llm_loop oracle base beat_idx (a + 1) r fb
      (p.1, p.2 + 1)
    | .noJson =>
      let p := call_llm_loop oracle base beat_idx (a + 1) r fb
      (p.1, p.2 + 1)
    | .ok parsed =>
      let effects := normalizeEffects (extractEffects parsed).1
      let all_errors := beatErrors beat_idx effects
      if all_errors.isEmpty then (some (effects, (extractEffects parsed).2), 1)
      else
        let p := call_llm_loop oracle base beat_idx (a + 1) r
          (some (String.intercalate "\n" (all_errors.take 5)))
        (p.1, p.2 + 1)

/-- `_call_llm_single` (`src/llm.py`): run up to `max_retries` attempts
starting with no feedback; on exhaustion fall back to `([], "")`
(lines 264–266).  Also reports the number of attempts performed. -/
def _call_llm_single (oracle : Nat → String → LLMOutcome) (base : String)
    (beat_idx : Int) (max_retries : Nat) : (List GroupLight × JVal) × Nat :=
  let p := call_llm_loop oracle base beat_idx 0 max_retries none
  (p.1.getD ([], .str ""), p.2)

/-! ## Concurrent scheduler (`predict_effects`, `src/llm.py`) -/

/-- The result-collection phase of `predict_effects` (`src/llm.py` lines
309–320): two `None`-initialised arrays of length `total` are filled at
index `beat_idx` as each future completes (`order` is the completion
order, some permutation of the beat indices), then any remaining `None`
is replaced by the defaults `[]` and `""`. -/
def collectResults (resultOf : Nat → List GroupLight × JVal) (total : Nat)
    (order : List Nat) : List (List GroupLight) × List JVal :=
  let final := order.foldl
    (fun (acc : List (Option (List GroupLight)) × List (Option JVal)) i =>
      (acc.1.set i (some (resultOf i).1), acc.2.set i (some (resultOf i).2)))
    (List.replicate total none, List.replicate total none)
  (final.1.map (fun o => o.getD []), final.2.map (fun o => o.getD (.str "")))

/-- `predict_effects` (`src/llm.py` lines 269–324): one `_call_llm_single`
task per beat (beat `i` gets oracle `oracles i` and base prompt
`prompts i`), results collected in completion order `order` into
index-addressed arrays. -/
def predict_effects (oracles : Nat → Nat → String → LLMOutcome)
    (prompts : Nat → String) (max_retries : Nat) (total : Nat)
    (order : List Nat) : List (List GroupLight) × List JVal :=
  collectResults (fun i => (_call_llm_single (oracles i) (prompts i) (Int.ofNat i) max_retries).1)
    total order

/-! ## Aggregator (`validate_file`, `src/validate.py`) -/

/-- The `stats` dict built by `validate_file`.  Each `Counter` is modelled
by the list of counted values in counting order (the counter maps a value
to its multiplicity in that list). -/
structure FileStats where
  total_beats : Nat
  beats_with_effects : Nat
  beats_empty : Nat
  groupKey_usage : List JVal
  motion_usage : List JVal
  color_usage : List JVal
  intensity_usage : List JVal
  vfx_usage : List JVal

/-- Record one validated effect into the five usage counters
(`src/validate.py` lines 103–108). -/
def recordEffect (st : FileStats) (gl : GroupLight) : FileStats :=
  { st with
    groupKey_usage := st.groupKey_usage ++ [getField gl "groupLightKey"],
    motion_usage := st.motion_usage ++ [getField gl "MotionEffect"],
    color_usage := st.color_usage ++ [getField gl "ColorEffect"],
    intensity_usage := st.intensity_usage ++ [getField gl "IntensityEffect"],
    vfx_usage := st.vfx_usage ++ [getField gl "VfxEffect"] }

/-- Inner loop of `validate_file` over one beat's groupLights
(`src/validate.py` lines 100–108): extend the error list with each
object's violations, and count the object's fields only when it has
none. -/
def validateBeatGLs (i : Int) : List GroupLight → List String × FileStats →
    List String × FileStats
  | [], acc => acc
  | gl :: rest, acc =>
    let errors := validate_group_light gl i
    validateBeatGLs i rest
      (acc.1 ++ errors, if errors.isEmpty then recordEffect acc.2 gl else acc.2)

/-- Outer loop of `validate_file` over the enumerated beats
(`src/validate.py` lines 93–108).  A beat is its `groupLights` list
(`beat.get("groupLights", [])`: a missing key is the empty list). -/
def validate_go : Nat → List (List GroupLight) → List String × FileStats →
    List String × FileStats
  | _, [], acc => acc
  | i, gls :: rest, acc =>
    let st := acc.2
    let st' := if gls.isEmpty then { st with beats_empty := st.beats_empty + 1 }
      else { st with beats_with_effects := st.beats_with_effects + 1 }
    validate_go (i + 1) rest (validateBeatGLs (Int.ofNat i) gls (acc.1, st'))

/-- `validate_file` (`src/validate.py` lines 75–110) on an already-decoded
beats list: returns `(all_errors, stats)`. -/
def validate_file (beats : List (List GroupLight)) : List String × FileStats :=
  validate_go 0 beats ([], ⟨beats.length, 0, 0, [], [], [], [], []⟩)

example : validate_group_light (mkGL 4 1 2 3 0) 0 = [] := by rfl

example : validate_group_light (mkGL 0 0 0 0 1) 5 = [] := by rfl

example : (validate_group_light (mkGL 0 2 0 0 1) 0).length = 1 := by rfl

example : (validate_group_light (mkGL 7 0 0 0 0) 0).length = 1 := by rfl

/-! ## Validator theorems -/

theorem ite_nil_singleton (c : Prop) [Decidable c] (x : String) :
    ((if c then ([] : List String) else [x]) = []) ↔ c := by
  split <;> simp_all

theorem ite_singleton_nil (c : Prop) [Decidable c] (x : String) :
    ((if c then [x] else ([] : List String)) = []) ↔ ¬c := by
  split <;> simp_all

theorem vfxRules_eq_nil_iff (bi : Int) (key m c i v : JVal) :
    vfxRules bi key m c i v = [] ↔
      ((isNum key 0 || isNum key 1) = true →
        isNum m 0 = true ∧ isNum c 0 = true ∧ isNum i 0 = true ∧ isNum v 0 = false) := by
  unfold vfxRules
  by_cases h : (isNum key 0 || isNum key 1) = true
  · simp only [h, if_true, List.append_eq_nil, ite_nil_singleton, ite_singleton_nil]
    simp [and_assoc]
  · simp only [h, if_false]
    simp [h]

theorem singleRules_eq_nil_iff (bi : Int) (key m v : JVal) :
    singleRules bi key m v = [] ↔
      ((isNum key 2 || isNum key 3) = true →
        (isNum m 0 || isNum m 3 || isNum m 4 || isNum m 5 || isNum m 6) = true ∧
          isNum v 0 = true) := by
  unfold singleRules
  by_cases h : (isNum key 2 || isNum key 3) = true
  · simp only [h, if_true, List.append_eq_nil, ite_nil_singleton, ite_singleton_nil]
    simp [and_assoc]
  · simp only [h, if_false]
    simp [h]

theorem multiRules_eq_nil_iff (bi : Int) (key m v : JVal) :
    multiRules bi key m v = [] ↔
      ((isNum key 4 || isNum key 5 || isNum key 6) = true →
        (isNum m 0 || isNum m 1 || isNum m 2) = true ∧ isNum v 0 = true) := by
  unfold multiRules
  by_cases h : (isNum key 4 || isNum key 5 || isNum key 6) = true
  · simp only [h, if_true, List.append_eq_nil, ite_nil_singleton, ite_singleton_nil]
    simp [and_assoc]
  · simp only [h, if_false]
    simp [h]

theorem validate_mkGL (k m c i v bi : Int) :
    validate_group_light (mkGL k m c i v) bi =
      rangeErr bi (toString k) "MotionEffect" (.num m) 7 ++
      rangeErr bi (toString k) "ColorEffect" (.num c) 4 ++
      rangeErr bi (toString k) "IntensityEffect" (.num i) 5 ++
      rangeErr bi (toString k) "VfxEffect" (.num v) 3 ++
      rangeErr bi (toString k) "groupLightKey" (.num k) 7 ++
      vfxRules bi (.num k) (.num m) (.num c) (.num i) (.num v) ++
      singleRules bi (.num k) (.num m) (.num v) ++
      multiRules bi (.num k) (.num m) (.num v) := rfl

theorem rangeErr_in_range (bi : Int) (s f : String) (n hi : Int)
    (h : 0 ≤ n ∧ n < hi) : rangeErr bi s f (.num n) hi = [] := by
  unfold rangeErr
  rw [if_pos]
  unfold inEnumRange
  simp only [Bool.and_eq_true, decide_eq_true_eq]
  omega

theorem isNum_num (a n : Int) : isNum (.num a) n = (a == n) := rfl

/-- C2: for an effect object with all five required fields present and in
their declared enum ranges, `validate_group_light` returns `[]` iff the
grammar row for its `groupLightKey` holds: keys 0–1 need
Motion = Color = Intensity = 0 and Vfx ∈ {1, 2}; keys 2–3 need Vfx = 0 and
Motion ∈ {0, 3, 4, 5, 6}; keys 4–6 need Vfx = 0 and Motion ∈ {0, 1, 2};
Color and Intensity are unconstrained for keys 2–6. -/
theorem C2_validate_grammar (k m c i v bi : Int)
    (hk : 0 ≤ k ∧ k < 7) (hm : 0 ≤ m ∧ m < 7) (hc : 0 ≤ c ∧ c < 4)
    (hi : 0 ≤ i ∧ i < 5) (hv : 0 ≤ v ∧ v < 3) :
    validate_group_light (mkGL k m c i v) bi = [] ↔
      (((k = 0 ∨ k = 1) → m = 0 ∧ c = 0 ∧ i = 0 ∧ (v = 1 ∨ v = 2)) ∧
       ((k = 2 ∨ k = 3) → v = 0 ∧ (m = 0 ∨ m = 3 ∨ m = 4 ∨ m = 5 ∨ m = 6)) ∧
       ((k = 4 ∨ k = 5 ∨ k = 6) → v = 0 ∧ (m = 0 ∨ m = 1 ∨ m = 2))) := by
  rw [validate_mkGL,
      rangeErr_in_range bi _ _ m 7 hm,
      rangeErr_in_range bi _ _ c 4 hc,
      rangeErr_in_range bi _ _ i 5 hi,
      rangeErr_in_range bi _ _ v 3 hv,
      rangeErr_in_range bi _ _ k 7 hk]
  simp only [List.nil_append, List.append_eq_nil, vfxRules_eq_nil_iff,
    singleRules_eq_nil_iff, multiRules_eq_nil_iff, isNum_num,
    Bool.or_eq_true, beq_iff_eq, beq_eq_false_iff_ne, ne_eq]
  omega

/-- A witness instantiating `C2_validate_grammar` at a concrete in-range
effect (key 4, LaserCone motion). -/
theorem C2_validate_grammar_witness :
    validate_group_light (mkGL 4 1 2 3 0) 0 = [] ↔
      ((((4:Int) = 0 ∨ (4:Int) = 1) → (1:Int) = 0 ∧ (2:Int) = 0 ∧ (3:Int) = 0 ∧ ((0:Int) = 1 ∨ (0:Int) = 2)) ∧
       (((4:Int) = 2 ∨ (4:Int) = 3) → (0:Int) = 0 ∧ ((1:Int) = 0 ∨ (1:Int) = 3 ∨ (1:Int) = 4 ∨ (1:Int) = 5 ∨ (1:Int) = 6)) ∧
       (((4:Int) = 4 ∨ (4:Int) = 5 ∨ (4:Int) = 6) → (0:Int) = 0 ∧ ((1:Int) = 0 ∨ (1:Int) = 1 ∨ (1:Int) = 2))) :=
  C2_validate_grammar 4 1 2 3 0 0 (by omega) (by omega) (by omega) (by omega) (by omega)

/-- C10: an effect object with all five fields present, `groupLightKey`
outside 0–6 and every other field in range triggers no group-type rules:
the result is exactly the single out-of-range violation for
`groupLightKey`. -/
theorem C10_out_of_range_key (k m c i v bi : Int)
    (hk : k < 0 ∨ 7 ≤ k) (hm : 0 ≤ m ∧ m < 7) (hc : 0 ≤ c ∧ c < 4)
    (hi : 0 ≤ i ∧ i < 5) (hv : 0 ≤ v ∧ v < 3) :
    validate_group_light (mkGL k m c i v) bi =
      [rangeMsg bi (toString k) "groupLightKey" (.num k)] := by
  have hkey : rangeErr bi (toString k) "groupLightKey" (.num k) 7 =
      [rangeMsg bi (toString k) "groupLightKey" (.num k)] := by
    unfold rangeErr
    rw [if_neg]
    unfold inEnumRange
    simp only [Bool.and_eq_true, decide_eq_true_eq, not_and]
    omega
  have h1 : vfxRules bi (.num k) (.num m) (.num c) (.num i) (.num v) = [] := by
    rw [vfxRules_eq_nil_iff]
    intro hcond
    exfalso
    simp only [isNum_num, Bool.or_eq_true, beq_iff_eq] at hcond
    omega
  have h2 : singleRules bi (.num k) (.num m) (.num v) = [] := by
    rw [singleRules_eq_nil_iff]
    intro hcond
    exfalso
    simp only [isNum_num, Bool.or_eq_true, beq_iff_eq] at hcond
    omega
  have h3 : multiRules bi (.num k) (.num m) (.num v) = [] := by
    rw [multiRules_eq_nil_iff]
    intro hcond
    exfalso
    simp only [isNum_num, Bool.or_eq_true, beq_iff_eq] at hcond
    omega
  rw [validate_mkGL,
      rangeErr_in_range bi _ _ m 7 hm,
      rangeErr_in_range bi _ _ c 4 hc,
      rangeErr_in_range bi _ _ i 5 hi,
      rangeErr_in_range bi _ _ v 3 hv,
      hkey, h1, h2, h3]
  simp

/-- A witness instantiating `C10_out_of_range_key` at key 7 with all other
fields zero. -/
theorem C10_out_of_range_key_witness :
    validate_group_light (mkGL 7 0 0 0 0) 0 =
      [rangeMsg 0 (toString (7:Int)) "groupLightKey" (.num 7)] :=
  C10_out_of_range_key 7 0 0 0 0 0 (by omega) (by omega) (by omega) (by omega) (by omega)

/-- C6: an effect object missing a required field yields exactly the
missing-field violation for the first missing field (in the source's
check order) and nothing else: no range or group-rule checks run. -/
theorem C6_missing_field_short_circuits (gl : GroupLight) (bi : Int)
    (h : ∃ f ∈ requiredFields, jlookup gl f = none) :
    ∃ f, firstMissing gl = some f ∧ jlookup gl f = none ∧
      validate_group_light gl bi = [missingMsg bi f] := by
  have hsome : (requiredFields.find? (fun f => (jlookup gl f).isNone)).isSome := by
    apply List.find?_isSome.mpr
    obtain ⟨f, hf, hnone⟩ := h
    exact ⟨f, hf, by simp [hnone]⟩
  obtain ⟨f, hf⟩ := Option.isSome_iff_exists.mp hsome
  have hmiss : firstMissing gl = some f := hf
  have hpf := List.find?_some hf
  simp only [Option.isNone_iff_eq_none] at hpf
  refine ⟨f, hmiss, hpf, ?_⟩
  unfold validate_group_light
  rw [hmiss]

/-- A witness instantiating `C6_missing_field_short_circuits` on an object
with only a `groupLightKey` field: the first missing field is
`MotionEffect`. -/
theorem C6_missing_field_short_circuits_witness :
    ∃ f, firstMissing [("groupLightKey", JVal.num 0)] = some f ∧
      jlookup [("groupLightKey", JVal.num 0)] f = none ∧
      validate_group_light [("groupLightKey", JVal.num 0)] 3 = [missingMsg 3 f] :=
  C6_missing_field_short_circuits [("groupLightKey", JVal.num 0)] 3
    ⟨"MotionEffect", by simp [requiredFields], by rfl⟩

/-! ## Retry-loop theorems -/

theorem beatErrors_nil (bi : Int) (es : List GroupLight)
    (h : (beatErrors bi es).isEmpty = true) :
    ∀ gl ∈ es, validate_group_light gl bi = [] := by
  intro gl hgl
  rw [List.isEmpty_iff] at h
  unfold beatErrors at h
  rw [List.flatten_eq_nil_iff] at h
  exact h _ (List.mem_map_of_mem _ hgl)

theorem call_llm_loop_success (oracle : Nat → String → LLMOutcome) (base : String)
    (beat_idx : Int) :
    ∀ (r a : Nat) (fb : Option String) (es : List GroupLight) (rs : JVal),
      (call_llm_loop oracle base beat_idx a r fb).1 = some (es, rs) →
      ∃ (a' : Nat) (fb' : Option String) (parsed : JVal),
        oracle a' (promptFor base fb') = .ok parsed ∧
        es = normalizeEffects (extractEffects parsed).1 ∧
        rs = (extractEffects parsed).2 ∧
        (beatErrors beat_idx es).isEmpty = true := by
  intro r
  induction r with
  | zero =>
    intro a fb es rs h
    simp [call_llm_loop] at h
  | succ n ih =>
    intro a fb es rs h
    unfold call_llm_loop at h
    cases hor : oracle a (promptFor base fb) with
    | raised =>
      rw [hor] at h
      exact ih (a + 1) fb es rs h
    | noJson =>
      rw [hor] at h
      exact ih (a + 1) fb es rs h
    | ok parsed =>
      rw [hor] at h
      simp only at h
      by_cases he : (beatErrors beat_idx (normalizeEffects (extractEffects parsed).1)).isEmpty = true
      · rw [if_pos he] at h
        simp only [Option.some.injEq, Prod.mk.injEq] at h
        exact ⟨a, fb, parsed, hor, h.1.symm, h.2.symm, by rw [← h.1]; exact he⟩
      · rw [if_neg he] at h
        exact ih (a + 1) _ es rs h

/-- C1: every effect in the set returned by the per-beat generator
satisfies `validate_group_light` with an empty violation list — on a
successful attempt the whole accepted set is valid, and the
retry-exhaustion fallback is the empty set, so no partially-valid set is
ever returned. -/
theorem C1_accepted_implies_valid (oracle : Nat → String → LLMOutcome) (base : String)
    (beat_idx : Int) (max_retries : Nat) (gl : GroupLight)
    (h : gl ∈ (_call_llm_single oracle base beat_idx max_retries).1.1) :
    validate_group_light gl beat_idx = [] := by
  unfold _call_llm_single at h
  simp only at h
  cases hp : (call_llm_loop oracle base beat_idx 0 max_retries none).1 with
  | none =>
    rw [hp] at h
    simp at h
  | some pr =>
    obtain ⟨es, rs⟩ := pr
    rw [hp] at h
    simp only [Option.getD_some] at h
    obtain ⟨a', fb', parsed, _, _, _, hemp⟩ :=
      call_llm_loop_success oracle base beat_idx max_retries 0 none es rs hp
    exact beatErrors_nil beat_idx es hemp gl h

/-- A witness instantiating `C1_accepted_implies_valid`: an oracle whose
first response carries one valid effect; the returned set contains it. -/
theorem C1_accepted_implies_valid_witness :
    validate_group_light (mkGL 4 1 2 3 0) 0 = [] :=
  C1_accepted_implies_valid
    (fun _ _ => LLMOutcome.ok
      (.obj [("reasoning", .str "chorus"), ("effects", .arr [.obj (mkGL 4 1 2 3 0)])]))
    "base" 0 3 (mkGL 4 1 2 3 0)
    (by rw [show (_call_llm_single
        (fun _ _ => LLMOutcome.ok
          (.obj [("reasoning", .str "chorus"), ("effects", .arr [.obj (mkGL 4 1 2 3 0)])]))
        "base" 0 3).1.1 = [mkGL 4 1 2 3 0] from rfl]
        exact List.mem_singleton.mpr rfl)

theorem call_llm_loop_all_fail (oracle : Nat → String → LLMOutcome) (base : String)
    (beat_idx : Int) (h : ∀ a p, attemptFails beat_idx (oracle a p) = true) :
    ∀ (r a : Nat) (fb : Option String),
      call_llm_loop oracle base beat_idx a r fb = (none, r) := by
  intro r
  induction r with
  | zero => intro a fb; rfl
  | succ n ih =>
    intro a fb
    unfold call_llm_loop
    cases hor : oracle a (promptFor base fb) with
    | raised => rw [ih]
    | noJson => rw [ih]
    | ok parsed =>
      have hf := h a (promptFor base fb)
      rw [hor] at hf
      unfold attemptFails at hf
      simp only [Bool.not_eq_true'] at hf
      simp only []
      rw [if_neg (by simp [hf]), ih]

/-- C3: when every one of the `max_retries` attempts fails (raised
exception, unextractable response, or validation violation), the per-beat
generator performs exactly `max_retries` attempts and returns the empty
effect set with empty rationale, without raising. -/
theorem C3_retry_exhaustion (oracle : Nat → String → LLMOutcome) (base : String)
    (beat_idx : Int) (max_retries : Nat)
    (h : ∀ a p, attemptFails beat_idx (oracle a p) = true) :
    _call_llm_single oracle base beat_idx max_retries = (([], .str ""), max_retries) := by
  unfold _call_llm_single
  rw [call_llm_loop_all_fail oracle base beat_idx h max_retries 0 none]
  rfl

/-- A witness instantiating `C3_retry_exhaustion` with an oracle that
always raises and the default `max_retries = 3`. -/
theorem C3_retry_exhaustion_witness :
    (∀ (a : Nat) (p : String),
      attemptFails 0 ((fun _ _ => LLMOutcome.raised) a p) = true) ∧
    _call_llm_single (fun _ _ => LLMOutcome.raised) "base" 0 3 = (([], .str ""), 3) :=
  ⟨fun _ _ => rfl, C3_retry_exhaustion (fun _ _ => LLMOutcome.raised) "base" 0 3 (fun _ _ => rfl)⟩

theorem call_llm_loop_succ (oracle : Nat → String → LLMOutcome) (base : String)
    (beat_idx : Int) (a r : Nat) (fb : Option String) :
    call_llm_loop oracle base beat_idx a (r + 1) fb =
      match oracle a (promptFor base fb) with
      | .raised =>
        let p := call_llm_loop oracle base beat_idx (a + 1) r fb
        (p.1, p.2 + 1)
      | .noJson =>
        let p := call_llm_loop oracle base beat_idx (a + 1) r fb
        (p.1, p.2 + 1)
      | .ok parsed =>
        let effects := normalizeEffects (extractEffects parsed).1
        let all_errors := beatErrors beat_idx effects
        if all_errors.isEmpty then (some (effects, (extractEffects parsed).2), 1)
        else
          let p := call_llm_loop oracle base beat_idx (a + 1) r
            (some (String.intercalate "\n" (all_errors.take 5)))
          (p.1, p.2 + 1) := rfl

/-- C5: an attempt whose service call raises, or whose response yields no
extractable JSON document, consumes exactly one retry attempt: the loop
continues with the remaining attempts, unchanged feedback, and an attempt
count one higher; no exception propagates (the loop is a total function
into result pairs). -/
theorem C5_failed_attempt_consumes_one (oracle : Nat → String → LLMOutcome)
    (base : String) (beat_idx : Int) (a r : Nat) (fb : Option String)
    (h : oracle a (promptFor base fb) = .raised ∨ oracle a (promptFor base fb) = .noJson) :
    call_llm_loop oracle base beat_idx a (r + 1) fb =
      ((call_llm_loop oracle base beat_idx (a + 1) r fb).1,
       (call_llm_loop oracle base beat_idx (a + 1) r fb).2 + 1) := by
  rcases h with h | h <;> rw [call_llm_loop_succ, h]

/-- A witness instantiating `C5_failed_attempt_consumes_one` on an oracle
returning an unextractable response. -/
theorem C5_failed_attempt_consumes_one_witness :
    ((fun _ _ => LLMOutcome.noJson) 0 (promptFor "base" none) = LLMOutcome.raised ∨
      (fun _ _ => LLMOutcome.noJson) 0 (promptFor "base" none) = LLMOutcome.noJson) ∧
    call_llm_loop (fun _ _ => LLMOutcome.noJson) "base" 0 0 1 none =
      ((call_llm_loop (fun _ _ => LLMOutcome.noJson) "base" 0 1 0 none).1,
       (call_llm_loop (fun _ _ => LLMOutcome.noJson) "base" 0 1 0 none).2 + 1) :=
  ⟨Or.inr rfl,
    C5_failed_attempt_consumes_one (fun _ _ => LLMOutcome.noJson) "base" 0 0 0 none (Or.inr rfl)⟩

/-- C7: when an attempt's candidates produce violations, the feedback
carried into the next attempt is the newline-concatenation of at most the
first 5 violation messages (later ones dropped), and the next attempt's
user prompt is the request prompt with that feedback appended. -/
theorem C7_feedback_first_five (oracle : Nat → String → LLMOutcome) (base : String)
    (beat_idx : Int) (a r : Nat) (fb : Option String) (parsed : JVal)
    (hok : oracle a (promptFor base fb) = .ok parsed)
    (hviol : (beatErrors beat_idx (normalizeEffects (extractEffects parsed).1)).isEmpty = false) :
    call_llm_loop oracle base beat_idx a (r + 1) fb =
      ((call_llm_loop oracle base beat_idx (a + 1) r
          (some (String.intercalate "\n"
            ((beatErrors beat_idx (normalizeEffects (extractEffects parsed).1)).take 5)))).1,
       (call_llm_loop oracle base beat_idx (a + 1) r
          (some (String.intercalate "\n"
            ((beatErrors beat_idx (normalizeEffects (extractEffects parsed).1)).take 5)))).2 + 1) ∧
    promptFor base (some (String.intercalate "\n"
        ((beatErrors beat_idx (normalizeEffects (extractEffects parsed).1)).take 5))) =
      base ++ feedbackSuffix (String.intercalate "\n"
        ((beatErrors beat_idx (normalizeEffects (extractEffects parsed).1)).take 5)) := by
  refine ⟨?_, rfl⟩
  rw [call_llm_loop_succ, hok]
  simp only [hviol, Bool.false_eq_true, if_false]

/-- A witness instantiating `C7_feedback_first_five`: the first response
proposes a VFX-group effect with a nonzero MotionEffect, which is a
violation. -/
theorem C7_feedback_first_five_witness :
    ((fun _ _ => LLMOutcome.ok (.obj [("effects", .arr [.obj (mkGL 0 2 0 0 1)])])) 0
        (promptFor "base" none) =
      LLMOutcome.ok (.obj [("effects", .arr [.obj (mkGL 0 2 0 0 1)])]) ∧
     (beatErrors 0 (normalizeEffects
        (extractEffects (.obj [("effects", .arr [.obj (mkGL 0 2 0 0 1)])])).1)).isEmpty = false) ∧
    (call_llm_loop (fun _ _ => LLMOutcome.ok (.obj [("effects", .arr [.obj (mkGL 0 2 0 0 1)])]))
        "base" 0 0 2 none =
      ((call_llm_loop (fun _ _ => LLMOutcome.ok (.obj [("effects", .arr [.obj (mkGL 0 2 0 0 1)])]))
          "base" 0 1 1
          (some (String.intercalate "\n"
            ((beatErrors 0 (normalizeEffects
              (extractEffects (.obj [("effects", .arr [.obj (mkGL 0 2 0 0 1)])])).1)).take 5)))).1,
       (call_llm_loop (fun _ _ => LLMOutcome.ok (.obj [("effects", .arr [.obj (mkGL 0 2 0 0 1)])]))
          "base" 0 1 1
          (some (String.intercalate "\n"
            ((beatErrors 0 (normalizeEffects
              (extractEffects (.obj [("effects", .arr [.obj (mkGL 0 2 0 0 1)])])).1)).take 5)))).2 + 1) ∧
     promptFor "base" (some (String.intercalate "\n"
        ((beatErrors 0 (normalizeEffects
          (extractEffects (.obj [("effects", .arr [.obj (mkGL 0 2 0 0 1)])])).1)).take 5))) =
      "base" ++ feedbackSuffix (String.intercalate "\n"
        ((beatErrors 0 (normalizeEffects
          (extractEffects (.obj [("effects", .arr [.obj (mkGL 0 2 0 0 1)])])).1)).take 5))) :=
  ⟨⟨rfl, rfl⟩,
    C7_feedback_first_five (fun _ _ => LLMOutcome.ok (.obj [("effects", .arr [.obj (mkGL 0 2 0 0 1)])]))
      "base" 0 0 1 none (.obj [("effects", .arr [.obj (mkGL 0 2 0 0 1)])]) rfl rfl⟩

/-- C9: a nonempty result returned by the per-beat generator is, in full,
the normalized candidate list of a single attempt on which every candidate
validated cleanly; candidates of a partially-valid attempt are discarded
wholesale, never filtered. -/
theorem C9_all_or_nothing (oracle : Nat → String → LLMOutcome) (base : String)
    (beat_idx : Int) (max_retries : Nat) (es : List GroupLight) (rs : JVal) (n : Nat)
    (h : _call_llm_single oracle base beat_idx max_retries = ((es, rs), n))
    (hne : es ≠ []) :
    ∃ (a : Nat) (fb : Option String) (parsed : JVal),
      oracle a (promptFor base fb) = .ok parsed ∧
      es = normalizeEffects (extractEffects parsed).1 ∧
      ∀ gl ∈ es, validate_group_light gl beat_idx = [] := by
  unfold _call_llm_single at h
  simp only at h
  cases hp : (call_llm_loop oracle base beat_idx 0 max_retries none).1 with
  | none =>
    rw [hp] at h
    simp only [Option.getD_none, Prod.mk.injEq] at h
    exact absurd h.1.1.symm hne
  | some pr =>
    obtain ⟨es', rs'⟩ := pr
    rw [hp] at h
    simp only [Option.getD_some, Prod.mk.injEq] at h
    obtain ⟨⟨he, hr⟩, hn⟩ := h
    obtain ⟨a, fb, parsed, hok, hes, hrs, hemp⟩ :=
      call_llm_loop_success oracle base beat_idx max_retries 0 none es' rs' hp
    subst he
    exact ⟨a, fb, parsed, hok, hes, beatErrors_nil beat_idx _ hemp⟩

/-- A witness instantiating `C9_all_or_nothing`: a fully-valid first
attempt whose complete candidate list is returned. -/
theorem C9_all_or_nothing_witness :
    ∃ (a : Nat) (fb : Option String) (parsed : JVal),
      (fun _ _ => LLMOutcome.ok
          (.obj [("reasoning", .str "chorus"), ("effects", .arr [.obj (mkGL 4 1 2 3 0)])])) a
        (promptFor "base" fb) = LLMOutcome.ok parsed ∧
      [mkGL 4 1 2 3 0] = normalizeEffects (extractEffects parsed).1 ∧
      ∀ gl ∈ [mkGL 4 1 2 3 0], validate_group_light gl 0 = [] :=
  C9_all_or_nothing
    (fun _ _ => LLMOutcome.ok
      (.obj [("reasoning", .str "chorus"), ("effects", .arr [.obj (mkGL 4 1 2 3 0)])]))
    "base" 0 3 [mkGL 4 1 2 3 0] (.str "chorus") 1 rfl (by simp)

/-! ## Scheduler theorems -/

theorem collect_fold_split (resultOf : Nat → List GroupLight × JVal) :
    ∀ (order : List Nat) (a1 : List (Option (List GroupLight))) (a2 : List (Option JVal)),
      order.foldl
        (fun (acc : List (Option (List GroupLight)) × List (Option JVal)) i =>
          (acc.1.set i (some (resultOf i).1), acc.2.set i (some (resultOf i).2)))
        (a1, a2) =
      (order.foldl (fun acc i => acc.set i (some (resultOf i).1)) a1,
       order.foldl (fun acc i => acc.set i (some (resultOf i).2)) a2) := by
  intro order
  induction order with
  | nil => intro a1 a2; rfl
  | cons i rest ih =>
    intro a1 a2
    simp only [List.foldl_cons]
    exact ih _ _

theorem foldl_set_spec {α : Type} (f : Nat → α) :
    ∀ (order : List Nat) (acc : List (Option α)) (j : Nat),
      (order.foldl (fun l i => l.set i (some (f i))) acc)[j]? =
        if j ∈ order ∧ j < acc.length then some (some (f j)) else acc[j]? := by
  intro order
  induction order with
  | nil =>
    intro acc j
    simp
  | cons i rest ih =>
    intro acc j
    simp only [List.foldl_cons]
    rw [ih, List.length_set]
    by_cases hr : j ∈ rest ∧ j < acc.length
    · rw [if_pos hr, if_pos ⟨List.mem_cons_of_mem _ hr.1, hr.2⟩]
    · rw [if_neg hr, List.getElem?_set]
      by_cases hij : i = j
      · subst hij
        by_cases hlen : i < acc.length
        · rw [if_pos rfl, if_pos hlen, if_pos ⟨List.mem_cons_self _ _, hlen⟩]
        · rw [if_pos rfl, if_neg hlen, if_neg (fun hc => hlen hc.2)]
          symm
          rw [List.getElem?_eq_none]
          omega
      · rw [if_neg hij]
        have hcc : ¬ (j ∈ i :: rest ∧ j < acc.length) := by
          intro hc
          rcases List.mem_cons.mp hc.1 with h | h
          · exact hij h.symm
          · exact hr ⟨h, hc.2⟩
        rw [if_neg hcc]

theorem collectResults_spec (resultOf : Nat → List GroupLight × JVal) (total : Nat)
    (order : List Nat) (hperm : order.Perm (List.range total)) :
    collectResults resultOf total order =
      ((List.range total).map (fun i => (resultOf i).1),
       (List.range total).map (fun i => (resultOf i).2)) := by
  unfold collectResults
  rw [collect_fold_split]
  simp only [Prod.mk.injEq]
  constructor
  · apply List.ext_getElem?
    intro j
    rw [List.getElem?_map, List.getElem?_map, foldl_set_spec, List.length_replicate]
    by_cases hj : j < total
    · rw [if_pos ⟨hperm.mem_iff.mpr (List.mem_range.mpr hj), hj⟩,
        List.getElem?_range hj]
      rfl
    · rw [if_neg (fun hc => hj hc.2), List.getElem?_replicate, if_neg hj]
      have : (List.range total)[j]? = none := by
        rw [List.getElem?_eq_none]
        simpa using Nat.le_of_not_lt hj
      rw [this]
      rfl
  · apply List.ext_getElem?
    intro j
    rw [List.getElem?_map, List.getElem?_map, foldl_set_spec, List.length_replicate]
    by_cases hj : j < total
    · rw [if_pos ⟨hperm.mem_iff.mpr (List.mem_range.mpr hj), hj⟩,
        List.getElem?_range hj]
      rfl
    · rw [if_neg (fun hc => hj hc.2), List.getElem?_replicate, if_neg hj]
      have : (List.range total)[j]? = none := by
        rw [List.getElem?_eq_none]
        simpa using Nat.le_of_not_lt hj
      rw [this]
      rfl

/-- C4: for any number of beats and any completion order of the
concurrent tasks (any permutation of the beat indices — the concurrency
limit only influences which permutations can occur), `predict_effects`
returns two lists of length exactly `total` whose entry at index `i` is
the per-beat result for beat `i`, in input beat order. -/
theorem C4_order_preservation (oracles : Nat → Nat → String → LLMOutcome)
    (prompts : Nat → String) (max_retries : Nat) (total : Nat) (order : List Nat)
    (hperm : order.Perm (List.range total)) :
    predict_effects oracles prompts max_retries total order =
      ((List.range total).map
        (fun i => (_call_llm_single (oracles i) (prompts i) (Int.ofNat i) max_retries).1.1),
       (List.range total).map
        (fun i => (_call_llm_single (oracles i) (prompts i) (Int.ofNat i) max_retries).1.2)) ∧
    (predict_effects oracles prompts max_retries total order).1.length = total ∧
    (predict_effects oracles prompts max_retries total order).2.length = total := by
  have h := collectResults_spec
    (fun i => (_call_llm_single (oracles i) (prompts i) (Int.ofNat i) max_retries).1)
    total order hperm
  unfold predict_effects
  refine ⟨h, ?_, ?_⟩ <;> rw [h] <;> simp

/-- A witness instantiating `C4_order_preservation` on two beats whose
tasks complete in reverse order. -/
theorem C4_order_preservation_witness :
    ([1, 0].Perm (List.range 2)) ∧
    (predict_effects (fun _ _ _ => LLMOutcome.raised) (fun _ => "base") 1 2 [1, 0] =
      ((List.range 2).map
        (fun i => (_call_llm_single ((fun _ _ _ => LLMOutcome.raised) i) ((fun _ => "base") i)
          (Int.ofNat i) 1).1.1),
       (List.range 2).map
        (fun i => (_call_llm_single ((fun _ _ _ => LLMOutcome.raised) i) ((fun _ => "base") i)
          (Int.ofNat i) 1).1.2)) ∧
     (predict_effects (fun _ _ _ => LLMOutcome.raised) (fun _ => "base") 1 2 [1, 0]).1.length = 2 ∧
     (predict_effects (fun _ _ _ => LLMOutcome.raised) (fun _ => "base") 1 2 [1, 0]).2.length = 2) :=
  ⟨by decide,
    C4_order_preservation (fun _ _ _ => LLMOutcome.raised) (fun _ => "base") 1 2 [1, 0] (by decide)⟩

/-! ## Aggregator theorems -/

/-- Declarative form of a usage histogram (used to characterise the
imperative accumulation in `validate_file`): the `field` values of exactly
those effect objects that individually validate with zero violations,
beats enumerated from index `k`. -/
def specValidUsage (field : String) : Nat → List (List GroupLight) → List JVal
  | _, [] => []
  | k, gls :: rest =>
    (gls.filter (fun gl => (validate_group_light gl (Int.ofNat k)).isEmpty)).map
      (fun gl => getField gl field) ++ specValidUsage field (k + 1) rest

theorem validateBeatGLs_bwe (i : Int) :
    ∀ (gls : List GroupLight) (acc : List String × FileStats),
      (validateBeatGLs i gls acc).2.beats_with_effects = acc.2.beats_with_effects := by
  intro gls
  induction gls with
  | nil => intro acc; rfl
  | cons gl rest ih =>
    intro acc
    rw [show validateBeatGLs i (gl :: rest) acc =
      validateBeatGLs i rest (acc.1 ++ validate_group_light gl i,
        if (validate_group_light gl i).isEmpty then recordEffect acc.2 gl else acc.2) from rfl]
    rw [ih]
    split <;> rfl

theorem validateBeatGLs_proj (proj : FileStats → List JVal) (field : String)
    (h1 : ∀ st gl, proj (recordEffect st gl) = proj st ++ [getField gl field]) (i : Int) :
    ∀ (gls : List GroupLight) (acc : List String × FileStats),
      proj (validateBeatGLs i gls acc).2 =
        proj acc.2 ++ (gls.filter (fun gl => (validate_group_light gl i).isEmpty)).map
          (fun gl => getField gl field) := by
  intro gls
  induction gls with
  | nil => intro acc; simp [validateBeatGLs]
  | cons gl rest ih =>
    intro acc
    rw [show validateBeatGLs i (gl :: rest) acc =
      validateBeatGLs i rest (acc.1 ++ validate_group_light gl i,
        if (validate_group_light gl i).isEmpty then recordEffect acc.2 gl else acc.2) from rfl]
    rw [ih]
    by_cases hv : (validate_group_light gl i).isEmpty = true
    · rw [if_pos hv]
      simp only [h1]
      simp [List.filter_cons, hv, List.append_assoc]
    · rw [if_neg hv]
      simp [List.filter_cons, hv]

theorem validate_go_bwe :
    ∀ (beats : List (List GroupLight)) (k : Nat) (acc : List String × FileStats),
      (validate_go k beats acc).2.beats_with_effects =
        acc.2.beats_with_effects + (beats.filter (fun gls => !gls.isEmpty)).length := by
  intro beats
  induction beats with
  | nil =>
    intro k acc
    simp [validate_go]
  | cons gls rest ih =>
    intro k acc
    rw [show validate_go k (gls :: rest) acc =
      validate_go (k + 1) rest (validateBeatGLs (Int.ofNat k) gls (acc.1,
        if gls.isEmpty then { acc.2 with beats_empty := acc.2.beats_empty + 1 }
        else { acc.2 with beats_with_effects := acc.2.beats_with_effects + 1 })) from rfl]
    rw [ih, validateBeatGLs_bwe]
    by_cases he : gls.isEmpty = true
    · rw [if_pos he, List.filter_cons_of_neg (by simpa using he)]
    · rw [if_neg he, List.filter_cons_of_pos (by simpa using he)]
      simp only [List.length_cons]
      omega

theorem validate_go_proj (proj : FileStats → List JVal) (field : String)
    (h1 : ∀ st gl, proj (recordEffect st gl) = proj st ++ [getField gl field])
    (h2 : ∀ st, proj { st with beats_empty := st.beats_empty + 1 } = proj st)
    (h3 : ∀ st, proj { st with beats_with_effects := st.beats_with_effects + 1 } = proj st) :
    ∀ (beats : List (List GroupLight)) (k : Nat) (acc : List String × FileStats),
      proj (validate_go k beats acc).2 = proj acc.2 ++ specValidUsage field k beats := by
  intro beats
  induction beats with
  | nil =>
    intro k acc
    simp [validate_go, specValidUsage]
  | cons gls rest ih =>
    intro k acc
    rw [show validate_go k (gls :: rest) acc =
      validate_go (k + 1) rest (validateBeatGLs (Int.ofNat k) gls (acc.1,
        if gls.isEmpty then { acc.2 with beats_empty := acc.2.beats_empty + 1 }
        else { acc.2 with beats_with_effects := acc.2.beats_with_effects + 1 })) from rfl]
    rw [ih, validateBeatGLs_proj proj field h1]
    have hb : proj (if gls.isEmpty then { acc.2 with beats_empty := acc.2.beats_empty + 1 }
        else { acc.2 with beats_with_effects := acc.2.beats_with_effects + 1 }) = proj acc.2 := by
      split
      · exact h2 _
      · exact h3 _
    rw [hb, show specValidUsage field k (gls :: rest) =
      (gls.filter (fun gl => (validate_group_light gl (Int.ofNat k)).isEmpty)).map
        (fun gl => getField gl field) ++ specValidUsage field (k + 1) rest from rfl,
      List.append_assoc]

/-- C8: in `validate_file`, the five usage histograms count only effect
objects that individually pass validation with zero violations, while
`beats_with_effects` counts every beat whose groupLights list is nonempty
regardless of the validity of its effects. -/
theorem C8_stats_counting (beats : List (List GroupLight)) :
    (validate_file beats).2.beats_with_effects =
      (beats.filter (fun gls => !gls.isEmpty)).length ∧
    (validate_file beats).2.groupKey_usage = specValidUsage "groupLightKey" 0 beats ∧
    (validate_file beats).2.motion_usage = specValidUsage "MotionEffect" 0 beats ∧
    (validate_file beats).2.color_usage = specValidUsage "ColorEffect" 0 beats ∧
    (validate_file beats).2.intensity_usage = specValidUsage "IntensityEffect" 0 beats ∧
    (validate_file beats).2.vfx_usage = specValidUsage "VfxEffect" 0 beats := by
  unfold validate_file
  refine ⟨?_, ?_, ?_, ?_, ?_, ?_⟩
  · rw [validate_go_bwe]
    simp
  · rw [validate_go_proj (fun st => st.groupKey_usage) "groupLightKey"
      (fun st gl => rfl) (fun st => rfl) (fun st => rfl)]
    rfl
  · rw [validate_go_proj (fun st => st.motion_usage) "MotionEffect"
      (fun st gl => rfl) (fun st => rfl) (fun st => rfl)]
    rfl
  · rw [validate_go_proj (fun st => st.color_usage) "ColorEffect"
      (fun st gl => rfl) (fun st => rfl) (fun st => rfl)]
    rfl
  · rw [validate_go_proj (fun st => st.intensity_usage) "IntensityEffect"
      (fun st gl => rfl) (fun st => rfl) (fun st => rfl)]
    rfl
  · rw [validate_go_proj (fun st => st.vfx_usage) "VfxEffect"
      (fun st gl => rfl) (fun st => rfl) (fun st => rfl)]
    rfl
